import Mathlib

/-!
Verification of the aseprite PNG codec (`src/app/file/png_format.cpp`) and of
the `ReplaceImage` undo command (`src/app/cmd/replace_image.cpp`).

The C++ is embedded shallowly: each loop of `PngFormat::onLoad` /
`PngFormat::onSave` becomes a Lean function over lists of natural numbers
(bytes and packed samples), and the `ReplaceImage` command becomes explicit
state passing over a registry value.  Machine integers are `Nat` with the
byte/word bounds stated explicitly where they matter.
-/

namespace Aseprite

/-! ### Pixel packing

`rgba`, `graya` and their accessors live in the `doc` module of the
repository (not part of the two files under verification).

Modelled from the spec: "TrueColor sample: 4 bytes (R,G,B,A)" and
"Grayscale sample: 2 bytes (V,A)"; decode "pack (r,g,b,a) as-is" /
"pack (v,a)".  A TrueColor sample packs the four bytes into one 32-bit
word, a Grayscale sample packs the two bytes into one 16-bit word. -/

def rgba (r g b a : Nat) : Nat :=
  r + 256 * g + 65536 * b + 16777216 * a

def rgba_getr (c : Nat) : Nat := c % 256

def rgba_getg (c : Nat) : Nat := c / 256 % 256

def rgba_getb (c : Nat) : Nat := c / 65536 % 256

def rgba_geta (c : Nat) : Nat := c / 16777216 % 256

def graya (v a : Nat) : Nat :=
  v + 256 * a

def graya_getv (c : Nat) : Nat := c % 256

def graya_geta (c : Nat) : Nat := c / 256 % 256

/-! ### Row conversion, RGB_ALPHA and GRAY_ALPHA

Decode: `png_format.cpp:240-251` (RGB_ALPHA) reads the row's bytes four at
a time and stores `rgba(r, g, b, a)`; `png_format.cpp:267-277` (GRAY_ALPHA)
reads them two at a time and stores `graya(k, a)`.

Encode: `png_format.cpp:451-462` (RGB_ALPHA) emits, for every stored
sample `c`, the bytes `rgba_getr c, rgba_getg c, rgba_getb c, rgba_geta c`;
`png_format.cpp:478-488` (GRAY_ALPHA) emits `graya_getv c, graya_geta c`. -/

def onLoadRowRgba : List Nat → List Nat
  | r :: g :: b :: a :: rest => rgba r g b a :: onLoadRowRgba rest
  | _ => []

def onSaveRowRgba : List Nat → List Nat
  | [] => []
  | c :: rest =>
      rgba_getr c :: rgba_getg c :: rgba_getb c :: rgba_geta c ::
        onSaveRowRgba rest

def onLoadRowGraya : List Nat → List Nat
  | v :: a :: rest => graya v a :: onLoadRowGraya rest
  | _ => []

def onSaveRowGraya : List Nat → List Nat
  | [] => []
  | c :: rest => graya_getv c :: graya_geta c :: onSaveRowGraya rest

/-- The decoder applied row by row to the encoder's row output (RGB). -/
def onLoadRgbaImage (rows : List (List Nat)) : List (List Nat) :=
  rows.map onLoadRowRgba

/-- The encoder applied row by row to an RGB pixel buffer. -/
def onSaveRgbaImage (img : List (List Nat)) : List (List Nat) :=
  img.map onSaveRowRgba

/-- The decoder applied row by row to the encoder's row output (Gray). -/
def onLoadGrayaImage (rows : List (List Nat)) : List (List Nat) :=
  rows.map onLoadRowGraya

/-- The encoder applied row by row to a Grayscale pixel buffer. -/
def onSaveGrayaImage (img : List (List Nat)) : List (List Nat) :=
  img.map onSaveRowGraya

/-! ### Color-type negotiation (`png_format.cpp:154-185`)

The `switch` on `png_get_color_type` maps the external color type to a
canonical `PixelFormat` (falling through from the `_ALPHA` cases, which
additionally set `fop->seq.has_alpha = true`); any other color type reports
"Color type not supported" and returns `false` before `fop_sequence_image`
is called, i.e. before any destination buffer is allocated.  The numeric
constants are the PNG color-type codes from `png.h`. -/

def PNG_COLOR_TYPE_GRAY : Nat := 0

def PNG_COLOR_TYPE_RGB : Nat := 2

def PNG_COLOR_TYPE_PALETTE : Nat := 3

def PNG_COLOR_TYPE_GRAY_ALPHA : Nat := 4

def PNG_COLOR_TYPE_RGB_ALPHA : Nat := 6

inductive PixelFormat where
  | IMAGE_RGB
  | IMAGE_GRAYSCALE
  | IMAGE_INDEXED
  deriving DecidableEq, Repr

/-- The `switch` of `png_format.cpp:154-176`: canonical format plus the
updated `has_alpha` flag, or `none` for the unsupported default case. -/
def negotiateFormat (colorType : Nat) (hasAlpha : Bool) :
    Option (PixelFormat × Bool) :=
  if colorType = PNG_COLOR_TYPE_RGB_ALPHA then some (.IMAGE_RGB, true)
  else if colorType = PNG_COLOR_TYPE_RGB then some (.IMAGE_RGB, hasAlpha)
  else if colorType = PNG_COLOR_TYPE_GRAY_ALPHA then
    some (.IMAGE_GRAYSCALE, true)
  else if colorType = PNG_COLOR_TYPE_GRAY then some (.IMAGE_GRAYSCALE, hasAlpha)
  else if colorType = PNG_COLOR_TYPE_PALETTE then some (.IMAGE_INDEXED, hasAlpha)
  else none

/-- `png_format.cpp:154-185`: negotiation followed by allocation of the
destination image (`fop_sequence_image`).  In the unsupported default case
the function returns the error without constructing any buffer. -/
def onLoadAllocate (colorType w h : Nat) (hasAlpha : Bool) :
    Except String (PixelFormat × Bool × List (List Nat)) :=
  match negotiateFormat colorType hasAlpha with
  | none => Except.error "Color type not supported"
  | some (pf, a) => Except.ok (pf, a, List.replicate h (List.replicate w 0))

/-! ### Palette transparency (`png_format.cpp:187-228`)

`std::vector<uint8_t> pal_alphas(256, 255)` and `int mask_entry = -1`;
the `tRNS` loop (`png_format.cpp:212-221`) copies `trans[i]` into
`pal_alphas[i]` and, for entries below 128, sets `fop->seq.has_alpha` and
records the first such index in `mask_entry`.  If a mask entry was found it
is published via `setTransparentColor`; afterwards `mask_entry` is re-read
from the sprite (`png_format.cpp:224-228`). -/

/-- Projection of the `tRNS` loop onto `mask_entry`: the first index `i`
(counting from the accumulator) whose alpha is below 128.  The C++ loop
keeps scanning after a hit, but `mask_entry` keeps its first value because
of the `if (mask_entry < 0)` guard. -/
def maskScan : List Nat → Nat → Option Nat
  | [], _ => none
  | a :: rest, i => if a < 128 then some i else maskScan rest (i + 1)

/-- `mask_entry` after the `tRNS` loop, `none` standing for the initial
`-1` (no transparent entry found). -/
def mask_entry (trans : List Nat) : Option Nat :=
  maskScan trans 0

/-- `png_format.cpp:223-228`: publish the found mask entry to the sprite
(`setTransparentColor`), then read the sprite's transparent color back.
When nothing was found the sprite's pre-existing value is returned. -/
def publishMask (trans : List Nat) (spriteMask : Nat) : Nat :=
  match mask_entry trans with
  | some m => m
  | none => spriteMask

/-- Projection of the `tRNS` loop onto `fop->seq.has_alpha`: the flag is
set (never cleared) whenever an entry below 128 is seen. -/
def has_alpha_scan : List Nat → Bool → Bool
  | [], h => h
  | a :: rest, h => has_alpha_scan rest (if a < 128 then true else h)

/-- Projection of the `tRNS` loop onto `pal_alphas`: overwrite the entries
`0 .. trans.length - 1` of the table. -/
def writeAlphas : List Nat → Nat → List Nat → List Nat
  | [], _, pal => pal
  | a :: rest, i, pal => writeAlphas rest (i + 1) (pal.set i a)

/-- `png_format.cpp:188` and the copy loop `png_format.cpp:212-213`:
a 256-entry table initialized to 255 with the supplied alphas written over
its prefix. -/
def pal_alphas (trans : List Nat) : List Nat :=
  writeAlphas trans 0 (List.replicate 256 255)

/-! ### Indexed pixel conversion (`png_format.cpp:290-305`) -/

/-- One pixel of the PALETTE branch: an index whose per-entry alpha is
below 128 is stored as `mask_entry`, otherwise it is stored unchanged. -/
def convert_indexed_pixel (alphas : List Nat) (mask c : Nat) : Nat :=
  if alphas.getD c 255 < 128 then mask else c

/-- The PALETTE row loop of `png_format.cpp:290-305`. -/
def onLoadRowIndexed (alphas : List Nat) (mask : Nat) (row : List Nat) :
    List Nat :=
  row.map (convert_indexed_pixel alphas mask)

/-! ### Encode-side transparency chunk (`png_format.cpp:417-431`) -/

/-- The `trans` array built by `png_format.cpp:421-426`: `mask_entry + 1`
entries, 255 everywhere except 0 at the mask entry itself. -/
def encodeTransChunk (mask_e : Nat) : List Nat :=
  (List.range (mask_e + 1)).map (fun c => if c = mask_e then 0 else 255)

/-- `png_format.cpp:417-431`: the `tRNS` chunk is emitted only when the
sprite has no background layer. -/
def onSaveTransChunk (hasBackgroundLayer : Bool) (mask_e : Nat) :
    Option (List Nat) :=
  if hasBackgroundLayer then none else some (encodeTransChunk mask_e)

/-! ### Decode pass/row loop and cooperative cancellation
(`png_format.cpp:234-314`)

The loop structure is
`for (pass = 0; pass < number_passes; pass++) for (y = 0; y < height; y++)`
with `if (fop_is_stop(fop)) break;` after each row.  We record the trace of
`(pass, y)` row writes; `stop n` is the value of the cancellation flag when
it is polled after the `n`-th row processed overall.  Note the `break`
leaves only the inner row loop. -/

/-- The inner row loop: `remaining` rows left in this pass, `y` the current
row, `acc` rows processed so far overall.  Returns the trace of `(pass, y)`
writes of this pass and the updated overall row count. -/
def rowLoop (stop : Nat → Bool) (p : Nat) :
    Nat → Nat → Nat → List (Nat × Nat) × Nat
  | 0, _, acc => ([], acc)
  | remaining + 1, y, acc =>
      if stop (acc + 1) then ([(p, y)], acc + 1)
      else
        ((p, y) :: (rowLoop stop p remaining (y + 1) (acc + 1)).1,
          (rowLoop stop p remaining (y + 1) (acc + 1)).2)

/-- The outer pass loop of `png_format.cpp:234`. -/
def passLoop (stop : Nat → Bool) (hgt : Nat) :
    Nat → Nat → Nat → List (Nat × Nat)
  | 0, _, _ => []
  | remaining + 1, p, acc =>
      let r := rowLoop stop p hgt 0 acc
      r.1 ++ passLoop stop hgt remaining (p + 1) r.2

/-- The whole read loop: trace of row writes plus the return value of
`onLoad`, which is `true` (success) whether or not the decode was
cancelled (`png_format.cpp:311-319`). -/
def decodePng (stop : Nat → Bool) (passes hgt : Nat) :
    List (Nat × Nat) × Bool :=
  (passLoop stop hgt passes 0 0, true)

/-! ### ReplaceImage (`src/app/cmd/replace_image.cpp`)

`Sprite::getImageRef`, `Sprite::replaceImage`, `Image::createCopy` and
`Image::setId` live in the `doc` module of the repository.

Modelled from the spec: the sprite-owned registry maps a stable image
identity to at most one bound buffer ("a stable identity value maps, in a
sprite-owned registry, to exactly one currently-bound buffer instance at a
time"); `replaceImage` rebinds it so that "the new identity now points at
the new buffer and the old identity's binding is removed"; `createCopy` is
a deep copy of the buffer bytes; `setId` re-stamps the copy with an
identity, so a rebind binds the buffer under the identity stamped on it. -/

abbrev Registry : Type :=
  Nat → Option (List Nat)

/-- `sprite()->replaceImage(curId, img)` where `img` carries identity
`imgId` (stamped by `setId` or by construction) and bytes `imgData`. -/
def replaceImage (reg : Registry) (curId imgId : Nat) (imgData : List Nat) :
    Registry :=
  fun i => if i = imgId then some imgData else if i = curId then none else reg i

/-- The command's fields: `m_oldImageId`, `m_newImageId`, the held new
image (`m_newImage`, released after execute) and the private deep copy
(`m_copy`), each as buffer bytes. -/
structure ReplaceImageCmd where
  m_oldImageId : Nat
  m_newImageId : Nat
  m_newImage : Option (List Nat)
  m_copy : Option (List Nat)
  deriving DecidableEq, Repr

/-- `ReplaceImage::onExecute` (`replace_image.cpp:33-44`): deep-copy the
buffer bound to the old identity into `m_copy`, rebind the registry to the
new image, release `m_newImage`.  `none` models the `ASSERT(oldImage)`
failure (old identity unbound) or a released `m_newImage`. -/
def onExecute (reg : Registry) (c : ReplaceImageCmd) :
    Option (Registry × ReplaceImageCmd) :=
  match reg c.m_oldImageId, c.m_newImage with
  | some oldData, some newData =>
      some (replaceImage reg c.m_oldImageId c.m_newImageId newData,
            { c with m_copy := some oldData, m_newImage := none })
  | _, _ => none

/-- `ReplaceImage::onUndo` (`replace_image.cpp:46-55`): re-stamp `m_copy`
with the old identity, rebind the registry to it, and refresh `m_copy` with
a deep copy of the displaced new image. -/
def onUndo (reg : Registry) (c : ReplaceImageCmd) :
    Option (Registry × ReplaceImageCmd) :=
  match reg c.m_newImageId, c.m_copy with
  | some newData, some copyData =>
      some (replaceImage reg c.m_newImageId c.m_oldImageId copyData,
            { c with m_copy := some newData })
  | _, _ => none

/-- `ReplaceImage::onRedo` (`replace_image.cpp:57-66`): symmetric to
execute, using the current `m_copy` re-stamped with the new identity. -/
def onRedo (reg : Registry) (c : ReplaceImageCmd) :
    Option (Registry × ReplaceImageCmd) :=
  match reg c.m_oldImageId, c.m_copy with
  | some oldData, some copyData =>
      some (replaceImage reg c.m_oldImageId c.m_newImageId copyData,
            { c with m_copy := some oldData })
  | _, _ => none

theorem rgba_unpack_pack (c : Nat) (hc : c < 4294967296) :
    rgba (rgba_getr c) (rgba_getg c) (rgba_getb c) (rgba_geta c) = c := by
  unfold rgba rgba_getr rgba_getg rgba_getb rgba_geta
  omega

theorem graya_unpack_pack (c : Nat) (hc : c < 65536) :
    graya (graya_getv c) (graya_geta c) = c := by
  unfold graya graya_getv graya_geta
  omega

theorem rgba_row_roundtrip (row : List Nat) (h : ∀ c ∈ row, c < 4294967296) :
    onLoadRowRgba (onSaveRowRgba row) = row := by
  induction row with
  | nil => rfl
  | cons c rest ih =>
      have hc : c < 4294967296 := h c (List.mem_cons_self c rest)
      have hrest : ∀ x ∈ rest, x < 4294967296 := fun x hx =>
        h x (List.mem_cons_of_mem c hx)
      simp [onSaveRowRgba, onLoadRowRgba, ih hrest, rgba_unpack_pack c hc]

theorem graya_row_roundtrip (row : List Nat) (h : ∀ c ∈ row, c < 65536) :
    onLoadRowGraya (onSaveRowGraya row) = row := by
  induction row with
  | nil => rfl
  | cons c rest ih =>
      have hc : c < 65536 := h c (List.mem_cons_self c rest)
      have hrest : ∀ x ∈ rest, x < 65536 := fun x hx =>
        h x (List.mem_cons_of_mem c hx)
      simp [onSaveRowGraya, onLoadRowGraya, ih hrest, graya_unpack_pack c hc]

/-- Claim C1: for TrueColor and Grayscale buffers encoded with
alpha-need = true, decoding the encoder's output yields the original buffer
pixel for pixel: the encoder emits each sample's (r,g,b,a) (resp. (v,a))
bytes and the decoder packs those same bytes back, so
`decode (encode buf) = buf` exactly. -/
theorem png_alpha_roundtrip (rgbImg grayImg : List (List Nat))
    (h1 : ∀ row ∈ rgbImg, ∀ c ∈ row, c < 4294967296)
    (h2 : ∀ row ∈ grayImg, ∀ c ∈ row, c < 65536) :
    onLoadRgbaImage (onSaveRgbaImage rgbImg) = rgbImg ∧
      onLoadGrayaImage (onSaveGrayaImage grayImg) = grayImg := by
  constructor
  · unfold onLoadRgbaImage onSaveRgbaImage
    rw [List.map_map]
    have h : List.map (onLoadRowRgba ∘ onSaveRowRgba) rgbImg =
        List.map id rgbImg :=
      List.map_congr_left (fun row hrow => rgba_row_roundtrip row (h1 row hrow))
    rw [h, List.map_id]
  · unfold onLoadGrayaImage onSaveGrayaImage
    rw [List.map_map]
    have h : List.map (onLoadRowGraya ∘ onSaveRowGraya) grayImg =
        List.map id grayImg :=
      List.map_congr_left (fun row hrow => graya_row_roundtrip row (h2 row hrow))
    rw [h, List.map_id]

/-- Claim C1 witness: the round trip evaluated on a concrete 2x2 TrueColor
buffer and a concrete 1x2 Grayscale buffer. -/
theorem png_alpha_roundtrip_witness :
    onLoadRgbaImage (onSaveRgbaImage [[4278190080, 16711680], [255, 0]]) =
        [[4278190080, 16711680], [255, 0]] ∧
      onLoadGrayaImage (onSaveGrayaImage [[65535, 128]]) = [[65535, 128]] :=
  png_alpha_roundtrip [[4278190080, 16711680], [255, 0]] [[65535, 128]]
    (by decide) (by decide)

/-! ### Palette transparency lemmas -/

theorem maskScan_shift (trans : List Nat) :
    ∀ i : Nat, maskScan trans i = (maskScan trans 0).map (· + i) := by
  induction trans with
  | nil => intro i; rfl
  | cons a rest ih =>
      intro i
      by_cases h : a < 128
      · simp [maskScan, h]
      · rw [maskScan, maskScan, if_neg h, if_neg h, ih (i + 1), ih 1,
          Option.map_map]
        cases maskScan rest 0 with
        | none => rfl
        | some v => simp; omega

theorem maskScan_lowest (trans : List Nat) :
    ∀ m : Nat, maskScan trans 0 = some m →
      m < trans.length ∧ trans.getD m 255 < 128 ∧
        ∀ j, j < m → 128 ≤ trans.getD j 255 := by
  induction trans with
  | nil => intro m hm; simp [maskScan] at hm
  | cons a rest ih =>
      intro m hm
      by_cases h : a < 128
      · rw [maskScan, if_pos h] at hm
        obtain rfl : m = 0 := by simpa using hm.symm
        exact ⟨by simp, by simpa using h, fun j hj => absurd hj (by omega)⟩
      · rw [maskScan, if_neg h, maskScan_shift rest 1] at hm
        cases h0 : maskScan rest 0 with
        | none => rw [h0] at hm; simp at hm
        | some m0 =>
            rw [h0] at hm
            simp at hm
            obtain ⟨h1, h2, h3⟩ := ih m0 h0
            refine ⟨by simp; omega, ?_, ?_⟩
            · rw [← hm]
              simpa using h2
            · intro j hj
              cases j with
              | zero => simpa using Nat.not_lt.mp h
              | succ j0 =>
                  rw [List.getD_cons_succ]
                  exact h3 j0 (by omega)

theorem maskScan_eq_none (trans : List Nat) (h : ∀ a ∈ trans, 128 ≤ a) :
    ∀ i : Nat, maskScan trans i = none := by
  induction trans with
  | nil => intro i; rfl
  | cons a rest ih =>
      intro i
      have ha : 128 ≤ a := h a (List.mem_cons_self a rest)
      rw [maskScan, if_neg (by omega)]
      exact ih (fun x hx => h x (List.mem_cons_of_mem a hx)) (i + 1)

theorem maskScan_none_forall (trans : List Nat) :
    ∀ i : Nat, maskScan trans i = none → ∀ a ∈ trans, 128 ≤ a := by
  induction trans with
  | nil => intro i _ a ha; simp at ha
  | cons a rest ih =>
      intro i hnone b hb
      by_cases h : a < 128
      · rw [maskScan, if_pos h] at hnone; simp at hnone
      · rw [maskScan, if_neg h] at hnone
        rcases List.mem_cons.mp hb with rfl | hb2
        · omega
        · exact ih (i + 1) hnone b hb2

theorem has_alpha_scan_eq (trans : List Nat) :
    ∀ h : Bool,
      has_alpha_scan trans h = (h || trans.any (fun a => decide (a < 128))) := by
  induction trans with
  | nil => intro h; simp [has_alpha_scan]
  | cons a rest ih =>
      intro h
      by_cases hA : a < 128
      · simp [has_alpha_scan, hA, ih]
      · simp [has_alpha_scan, hA, ih]

theorem writeAlphas_length (trans : List Nat) :
    ∀ (i : Nat) (pal : List Nat),
      (writeAlphas trans i pal).length = pal.length := by
  induction trans with
  | nil => intro i pal; rfl
  | cons a rest ih =>
      intro i pal
      rw [writeAlphas, ih, List.length_set]

/-- Claim C2: for every per-entry alpha table, the mask index published to
the sprite as its transparent color is the lowest palette index whose alpha
is below 128 (it qualifies, every lower index does not, and when some index
qualifies the resolver does find one); in particular for the table
`[255,255,0,255,50,255]` the published mask index is 2, not 4. -/
theorem mask_entry_lowest_qualifying (trans : List Nat) (s : Nat) :
    (∀ m, mask_entry trans = some m →
      m < trans.length ∧ trans.getD m 255 < 128 ∧
        (∀ j, j < m → 128 ≤ trans.getD j 255) ∧ publishMask trans s = m) ∧
    (∀ i, i < trans.length → trans.getD i 255 < 128 →
      mask_entry trans ≠ none) ∧
    publishMask [255, 255, 0, 255, 50, 255] s = 2 := by
  refine ⟨?_, ?_, rfl⟩
  · intro m hm
    obtain ⟨h1, h2, h3⟩ := maskScan_lowest trans m hm
    exact ⟨h1, h2, h3, by simp [publishMask, hm]⟩
  · intro i hi hlt hnone
    have hmem : trans.getD i 255 ∈ trans := by
      rw [List.getD_eq_getElem _ _ hi]
      exact List.getElem_mem hi
    have := maskScan_none_forall trans 0 hnone (trans.getD i 255) hmem
    omega

/-- Claim C2 witness: the mask characterization applied to the spec's
example table with sprite mask 9. -/
theorem mask_entry_lowest_qualifying_witness :
    mask_entry [255, 255, 0, 255, 50, 255] = some 2 ∧
      2 < ([255, 255, 0, 255, 50, 255] : List Nat).length ∧
      ([255, 255, 0, 255, 50, 255] : List Nat).getD 2 255 < 128 ∧
      (∀ j, j < 2 → 128 ≤ ([255, 255, 0, 255, 50, 255] : List Nat).getD j 255) ∧
      publishMask [255, 255, 0, 255, 50, 255] 9 = 2 :=
  ⟨by decide, (mask_entry_lowest_qualifying [255, 255, 0, 255, 50, 255] 9).1 2
    (by decide)⟩

/-- Claim C7: when no entry of the per-entry alpha table is below 128
(in particular when there is no table at all, the empty list), the sprite's
pre-existing transparent color is returned unchanged. -/
theorem publishMask_unchanged (trans : List Nat) (s : Nat)
    (h : ∀ a ∈ trans, 128 ≤ a) :
    publishMask trans s = s ∧ publishMask [] s = s := by
  have hnone := maskScan_eq_none trans h 0
  exact ⟨by simp [publishMask, mask_entry, hnone], rfl⟩

/-- Claim C7 witness: an all-opaque three-entry table leaves the sprite
mask 7 unchanged. -/
theorem publishMask_unchanged_witness :
    (∀ a ∈ ([255, 128, 200] : List Nat), 128 ≤ a) ∧
      publishMask [255, 128, 200] 7 = 7 ∧ publishMask [] 7 = 7 :=
  ⟨by decide, (publishMask_unchanged [255, 128, 200] 7 (by decide)).1,
    (publishMask_unchanged [255, 128, 200] 7 (by decide)).2⟩

/-- Claim C10: the decode of an indexed image ends with `has_alpha = true`
exactly when the flag was already set or some supplied per-entry alpha is
below 128; with no transparency table, or with all supplied alphas at or
above 128, the flag is left unchanged. -/
theorem has_alpha_set_iff (trans : List Nat) (h0 : Bool) :
    (has_alpha_scan trans h0 = true ↔ h0 = true ∨ ∃ a ∈ trans, a < 128) ∧
    ((∀ a ∈ trans, 128 ≤ a) → has_alpha_scan trans h0 = h0) ∧
    has_alpha_scan [] h0 = h0 := by
  refine ⟨?_, ?_, rfl⟩
  · rw [has_alpha_scan_eq]
    simp [List.any_eq_true]
  · intro h
    rw [has_alpha_scan_eq]
    have hfalse : trans.any (fun a => decide (a < 128)) = false := by
      simp only [List.any_eq_false, decide_eq_true_eq]
      intro a ha
      exact Nat.not_lt.mpr (h a ha)
    simp [hfalse]

/-- Claim C10 witness: `[255, 50]` sets the flag starting from `false`;
`[255, 200]` leaves a `false` flag unchanged. -/
theorem has_alpha_set_iff_witness :
    has_alpha_scan [255, 50] false = true ∧
      has_alpha_scan [255, 200] false = false :=
  ⟨(has_alpha_set_iff [255, 50] false).1.mpr (Or.inr ⟨50, by decide, by decide⟩),
    (has_alpha_set_iff [255, 200] false).2.1 (by decide)⟩

/-- Claim C9: the per-entry alpha table is created with exactly 256
entries whatever transparency data the stream supplied, and every source
pixel index, being a byte below 256, is a valid index into it. -/
theorem pal_alphas_lookup_inbounds (trans : List Nat) (c : Nat)
    (hc : c < 256) :
    (pal_alphas trans).length = 256 ∧ c < (pal_alphas trans).length := by
  have hl : (pal_alphas trans).length = 256 := by
    unfold pal_alphas
    rw [writeAlphas_length, List.length_replicate]
  exact ⟨hl, by omega⟩

/-- Claim C9 witness: pixel value 255 is in bounds for the table built
from a two-entry transparency chunk. -/
theorem pal_alphas_lookup_inbounds_witness :
    (pal_alphas [0, 1]).length = 256 ∧ 255 < (pal_alphas [0, 1]).length :=
  pal_alphas_lookup_inbounds [0, 1] 255 (by decide)

/-- Claim C3: in the PALETTE conversion loop, every pixel whose index has
per-entry alpha below 128 is stored as the mask index, and every pixel
whose index has alpha at or above 128 is stored unchanged, at every
position of the row and for every index value. -/
theorem indexed_collapse (alphas : List Nat) (mask : Nat) (row : List Nat)
    (i : Nat) (hi : i < row.length) :
    (alphas.getD (row.getD i 0) 255 < 128 →
        (onLoadRowIndexed alphas mask row).getD i 0 = mask) ∧
    (128 ≤ alphas.getD (row.getD i 0) 255 →
        (onLoadRowIndexed alphas mask row).getD i 0 = row.getD i 0) := by
  have hlen : i < (onLoadRowIndexed alphas mask row).length := by
    simpa [onLoadRowIndexed] using hi
  have hmap : (onLoadRowIndexed alphas mask row).getD i 0 =
      convert_indexed_pixel alphas mask (row.getD i 0) := by
    rw [List.getD_eq_getElem _ _ hlen, List.getD_eq_getElem _ _ hi]
    simp [onLoadRowIndexed]
  constructor
  · intro h
    rw [hmap]
    unfold convert_indexed_pixel
    rw [if_pos h]
  · intro h
    rw [hmap]
    unfold convert_indexed_pixel
    rw [if_neg (by omega)]

/-- Claim C3 witness: with the spec's alpha table extended to 256 entries,
a pixel holding index 4 (alpha 50) collapses to mask 2 and a pixel holding
index 3 (alpha 255) passes through, inside the row `[4, 3]`. -/
theorem indexed_collapse_witness :
    (onLoadRowIndexed (pal_alphas [255, 255, 0, 255, 50, 255]) 2 [4, 3]).getD
        0 0 = 2 ∧
      (onLoadRowIndexed (pal_alphas [255, 255, 0, 255, 50, 255]) 2 [4, 3]).getD
        1 0 = 3 :=
  ⟨(indexed_collapse (pal_alphas [255, 255, 0, 255, 50, 255]) 2 [4, 3] 0
      (by decide)).1 (by decide),
    (indexed_collapse (pal_alphas [255, 255, 0, 255, 50, 255]) 2 [4, 3] 1
      (by decide)).2 (by decide)⟩

/-- Claim C4: with no background layer and mask index m, the encoder emits
an alpha table of exactly m+1 entries, 255 everywhere except entry m which
is 0; with a background layer no table is emitted; for mask index 2 the
table is `[255, 255, 0]`. -/
theorem save_trans_chunk (m : Nat) :
    onSaveTransChunk false m = some (encodeTransChunk m) ∧
    (encodeTransChunk m).length = m + 1 ∧
    (encodeTransChunk m).getD m 255 = 0 ∧
    (∀ c, c < m → (encodeTransChunk m).getD c 255 = 255) ∧
    onSaveTransChunk true m = none ∧
    encodeTransChunk 2 = [255, 255, 0] := by
  have hlen : (encodeTransChunk m).length = m + 1 := by
    simp [encodeTransChunk]
  refine ⟨rfl, hlen, ?_, ?_, rfl, by decide⟩
  · rw [List.getD_eq_getElem _ _ (by omega)]
    simp [encodeTransChunk]
  · intro c hc
    rw [List.getD_eq_getElem _ _ (by omega)]
    simp only [encodeTransChunk, List.getElem_map, List.getElem_range]
    rw [if_neg (by omega)]

/-- Claim C4 witness: the emitted chunk for mask index 2, with entry 1
opaque and entry 2 transparent. -/
theorem save_trans_chunk_witness :
    onSaveTransChunk false 2 = some (encodeTransChunk 2) ∧
      (encodeTransChunk 2).length = 3 ∧
      (encodeTransChunk 2).getD 2 255 = 0 ∧
      (encodeTransChunk 2).getD 1 255 = 255 ∧
      onSaveTransChunk true 2 = none :=
  ⟨(save_trans_chunk 2).1, (save_trans_chunk 2).2.1, (save_trans_chunk 2).2.2.1,
    (save_trans_chunk 2).2.2.2.1 1 (by decide), (save_trans_chunk 2).2.2.2.2.1⟩

/-- Claim C6: any color type other than grayscale (0), truecolor (2),
palette (3), grayscale+alpha (4) or truecolor+alpha (6) makes the load
fail with the unsupported-format error, with no destination buffer
allocated. -/
theorem unsupported_color_type (colorType w ht : Nat) (hasAlpha : Bool)
    (h0 : colorType ≠ 0) (h2 : colorType ≠ 2) (h3 : colorType ≠ 3)
    (h4 : colorType ≠ 4) (h6 : colorType ≠ 6) :
    onLoadAllocate colorType w ht hasAlpha =
      Except.error "Color type not supported" := by
  unfold onLoadAllocate negotiateFormat
  unfold PNG_COLOR_TYPE_RGB_ALPHA PNG_COLOR_TYPE_RGB PNG_COLOR_TYPE_GRAY_ALPHA
  unfold PNG_COLOR_TYPE_GRAY PNG_COLOR_TYPE_PALETTE
  rw [if_neg h6, if_neg h2, if_neg h4, if_neg h0, if_neg h3]

/-- Claim C6 witness: color type 5 (an invalid code) fails the load of a
16x16 image. -/
theorem unsupported_color_type_witness :
    onLoadAllocate 5 16 16 false = Except.error "Color type not supported" :=
  unsupported_color_type 5 16 16 false (by decide) (by decide) (by decide)
    (by decide) (by decide)

/-! ### Cancellation lemmas -/

theorem rowLoop_runs (stop : Nat → Bool) (p : Nat) :
    ∀ t rem y acc : Nat, t < rem →
      (∀ j, 1 ≤ j → j ≤ t → stop (acc + j) = false) →
      stop (acc + t + 1) = true →
      rowLoop stop p rem y acc =
        ((List.range' y (t + 1)).map (fun z => (p, z)), acc + t + 1) := by
  intro t
  induction t with
  | zero =>
      intro rem y acc hrem hbefore hstop
      cases rem with
      | zero => omega
      | succ r =>
          rw [rowLoop, if_pos (show stop (acc + 1) = true from hstop)]
          rfl
  | succ t0 ih =>
      intro rem y acc hrem hbefore hstop
      cases rem with
      | zero => omega
      | succ r =>
          have hfirst : stop (acc + 1) = false := hbefore 1 (by omega) (by omega)
          rw [rowLoop, if_neg (by simp [hfirst])]
          have hshift : ∀ j, 1 ≤ j → j ≤ t0 → stop (acc + 1 + j) = false := by
            intro j h1 h2
            have heq : acc + 1 + j = acc + (j + 1) := by omega
            rw [heq]
            exact hbefore (j + 1) (by omega) (by omega)
          have hstop2 : stop (acc + 1 + t0 + 1) = true := by
            have heq : acc + 1 + t0 + 1 = acc + (t0 + 1) + 1 := by omega
            rw [heq]
            exact hstop
          rw [ih r (y + 1) (acc + 1) (by omega) hshift hstop2]
          refine Prod.ext ?_ (by omega)
          show (p, y) :: (List.range' (y + 1) (t0 + 1)).map (fun z => (p, z)) =
            (List.range' y (t0 + 1 + 1)).map (fun z => (p, z))
          rw [List.range'_succ]
          rfl

/-- Claim C5 counterexample: in a two-pass decode of a two-row image with
the cancellation flag set after the very first row, the `break` of
`png_format.cpp:311-312` leaves only the inner row loop, so the second
interlace pass still processes (and rewrites) row 0: the decode does not
stop as a whole and the trace is `[(0,0), (1,0)]`, not `[(0,0)]`. -/
theorem decode_cancel_multipass_counterexample :
    decodePng (fun n => decide (1 ≤ n)) 2 2 = ([(0, 0), (1, 0)], true) ∧
      (fun n => decide (1 ≤ n)) 1 = true ∧
      (decodePng (fun n => decide (1 ≤ n)) 2 2).1 ≠ [(0, 0)] :=
  ⟨rfl, rfl, by decide⟩

/-- Claim C5 (amended): cancellation exits only the current pass's row
loop; for a single-pass decode cancelled after row k, exactly rows 0..k of
pass 0 are written, in order, and `onLoad` still returns success. -/
theorem decode_cancel_single_pass (stop : Nat → Bool) (hgt k : Nat)
    (hk : k < hgt) (hstop : stop (k + 1) = true)
    (hbefore : ∀ j, 1 ≤ j → j ≤ k → stop j = false) :
    decodePng stop 1 hgt = ((List.range (k + 1)).map (fun y => (0, y)), true) := by
  unfold decodePng
  have h := rowLoop_runs stop 0 k hgt 0 0 hk
    (fun j h1 h2 => by simpa using hbefore j h1 h2) (by simpa using hstop)
  have hunfold : passLoop stop hgt 1 0 0 =
      (rowLoop stop 0 hgt 0 0).1 ++ passLoop stop hgt 0 1
        (rowLoop stop 0 hgt 0 0).2 := rfl
  rw [hunfold, h]
  simp [passLoop, List.range_eq_range']

/-- Claim C5 witness: single-pass decode of a 3-row image with the flag
raised after the second row (k = 1): rows 0 and 1 are written, the result
is success. -/
theorem decode_cancel_single_pass_witness :
    decodePng (fun n => decide (2 ≤ n)) 1 3 =
      ((List.range 2).map (fun y => (0, y)), true) :=
  decode_cancel_single_pass (fun n => decide (2 ≤ n)) 3 1 (by decide) (by decide)
    (fun j h1 h2 => by
      have hj : j = 1 := by omega
      rw [hj]
      rfl)

/-! ### ReplaceImage theorems -/

/-- Claim C8: starting from a registry in which the old identity is bound
to `oldData`, executing the command binds the new identity to the new
buffer and unbinds the old identity; undo re-binds the old identity to a
buffer byte-equal to `oldData` and unbinds the new identity; redo restores
the registry to exactly the post-execute state (pointwise equal). -/
theorem replace_image_cycle (reg : Registry) (oldId newId : Nat)
    (oldData newData : List Nat) (hne : oldId ≠ newId)
    (hold : reg oldId = some oldData) :
    onExecute reg ⟨oldId, newId, some newData, none⟩ =
        some (replaceImage reg oldId newId newData,
          ⟨oldId, newId, none, some oldData⟩) ∧
    replaceImage reg oldId newId newData oldId = none ∧
    replaceImage reg oldId newId newData newId = some newData ∧
    onUndo (replaceImage reg oldId newId newData)
        ⟨oldId, newId, none, some oldData⟩ =
      some (replaceImage (replaceImage reg oldId newId newData) newId oldId
          oldData, ⟨oldId, newId, none, some newData⟩) ∧
    replaceImage (replaceImage reg oldId newId newData) newId oldId oldData
        oldId = some oldData ∧
    replaceImage (replaceImage reg oldId newId newData) newId oldId oldData
        newId = none ∧
    onRedo (replaceImage (replaceImage reg oldId newId newData) newId oldId
        oldData) ⟨oldId, newId, none, some newData⟩ =
      some (replaceImage (replaceImage (replaceImage reg oldId newId newData)
          newId oldId oldData) oldId newId newData,
        ⟨oldId, newId, none, some oldData⟩) ∧
    ∀ i, replaceImage (replaceImage (replaceImage reg oldId newId newData)
        newId oldId oldData) oldId newId newData i =
      replaceImage reg oldId newId newData i := by
  have hns : newId ≠ oldId := fun h => hne h.symm
  refine ⟨?_, ?_, ?_, ?_, ?_, ?_, ?_, ?_⟩
  · simp [onExecute, hold]
  · simp [replaceImage, hne]
  · simp [replaceImage]
  · simp [onUndo, replaceImage]
  · simp [replaceImage]
  · simp [replaceImage, hns]
  · simp [onRedo, replaceImage]
  · intro i
    by_cases h1 : i = newId
    · simp [replaceImage, h1, hns]
    · by_cases h2 : i = oldId
      · simp [replaceImage, h1, h2]
      · simp [replaceImage, h1, h2]

/-- Claim C8 witness: the full execute / undo / redo cycle on the concrete
registry binding identity 1 to buffer `[7]`, with new image `[9]` under
identity 2; redo's registry agrees with execute's everywhere. -/
theorem replace_image_cycle_witness :
    (1 : Nat) ≠ 2 ∧
      replaceImage (fun i => if i = 1 then some [7] else none) 1 2 [9] 1 =
        none ∧
      replaceImage (fun i => if i = 1 then some [7] else none) 1 2 [9] 2 =
        some [9] ∧
      ∀ i, replaceImage (replaceImage (replaceImage
          (fun i => if i = 1 then some [7] else none) 1 2 [9]) 2 1 [7]) 1 2
          [9] i =
        replaceImage (fun i => if i = 1 then some [7] else none) 1 2 [9] i :=
  ⟨by decide,
    (replace_image_cycle (fun i => if i = 1 then some [7] else none) 1 2 [7]
      [9] (by decide) rfl).2.1,
    (replace_image_cycle (fun i => if i = 1 then some [7] else none) 1 2 [7]
      [9] (by decide) rfl).2.2.1,
    (replace_image_cycle (fun i => if i = 1 then some [7] else none) 1 2 [7]
      [9] (by decide) rfl).2.2.2.2.2.2.2⟩

end Aseprite
